import Mathlib

/-
Shallow embedding of the tree-view extension's core (src/TreeDataProvider.ts).

Modelling conventions:
- JavaScript strings are Lean `String`s; where a proof has to reason about
  character positions the `.data` character list is used.
- `path.join a b` is modelled as `a ++ "/" ++ b`; every join in the source is
  applied to a non-empty directory path, where node's `path.join` behaves as
  plain concatenation with a separator.
- The filesystem is an explicit record of the four primitives the source
  consumes: `fs.readdirSync`, `fs.accessSync` (whose failure is caught in
  `pathExists`), `fs.existsSync` and `fs.lstatSync(..).isDirectory()`.
- `vscode.window.showInformationMessage` is an effect; `getChildren` returns the
  produced item list together with the number of advisory notices surfaced
  during the call.
-/

/-- Outcome of the `fs.accessSync` existence check: success, a plain
"no such file" failure, or any other filesystem access error (permissions,
races).  The source treats the two failure cases identically by catching the
thrown error. -/
inductive AccessResult
  | ok
  | enoent
  | eacces
deriving DecidableEq, Repr

/-- The filesystem primitives consumed by the provider, as an explicit record:
directory listing, existence-check outcome, `existsSync`, and the
`lstatSync(..).isDirectory()` test. -/
structure FS where
  readdir : String → List String
  access : String → AccessResult
  existsSync : String → Bool
  isDirectorySync : String → Bool

/-- One row of the tree (the source's `FileItem`).  `isDirectory` records
whether the collapsible state is `Collapsed`; `hasCommand` records whether the
open-file command is attached (the source attaches it exactly when the entry is
not a directory); `isTestOrStoryFile` is the constructor's auxiliary marker
(`displayTestIcon`). -/
structure FileItem where
  label : String
  fsPath : String
  isDirectory : Bool
  hasCommand : Bool
  isTestOrStoryFile : Bool
deriving DecidableEq, Repr

/-- Model of node's `path.join` for the non-normalising joins the source
performs. -/
def pathJoin (a b : String) : String := a ++ "/" ++ b

/-- Source `inTestOrStoryDirectory`: exact path equality with
`workspaceRoot/tests` or `workspaceRoot/stories`. -/
def inTestOrStoryDirectory (workspaceRoot directoryPath : String) : Bool :=
  directoryPath == pathJoin workspaceRoot "tests" ||
  directoryPath == pathJoin workspaceRoot "stories"

/-- Model of JavaScript `String.prototype.includes` on character lists:
some tail of the haystack starts with the pattern. -/
def listIncludes (pat : List Char) : List Char → Bool
  | [] => pat.isEmpty
  | c :: t => pat.isPrefixOf (c :: t) || listIncludes pat t

/-- JavaScript `s.includes(pat)`. -/
def strIncludes (s pat : String) : Bool := listIncludes pat.data s.data

/-- Source `isTestOrStoryFile`: the label contains `.test.` or `.stories.`. -/
def isTestOrStoryFile (label : String) : Bool :=
  strIncludes label ".test." || strIncludes label ".stories."

/-- Model of JavaScript `split` with a single-character separator on character
lists: `splitChar '.' "a.b".data = [['a'], ['b']]`, and the empty string splits
to one empty token, as in JavaScript. -/
def splitChar (sep : Char) : List Char → List (List Char)
  | [] => [[]]
  | c :: t =>
    match splitChar sep t with
    | [] => if c = sep then [[], []] else [[c]]
    | h :: r => if c = sep then [] :: h :: r else (c :: h) :: r

/-- The source's `componentLabel.split('.')[0]`: the first token of the split
(JavaScript `split` always returns a non-empty array, so index 0 is its head). -/
def jsSplitHead (s : String) (sep : Char) : List Char :=
  (splitChar sep s.data).headD []

/-- The filter predicate inside the source's `findMatchingFiles`:
`fileName.indexOf(splitPath[0] + ".test.") === 0` or the same with
`".stories."`; `indexOf(p) === 0` is the prefix test. -/
def isMatchingFileName (componentLabel fileName : String) : Bool :=
  (jsSplitHead componentLabel '.' ++ ".test.".data).isPrefixOf fileName.data ||
  (jsSplitHead componentLabel '.' ++ ".stories.".data).isPrefixOf fileName.data

/-- Source `pathExists`: `fs.accessSync` wrapped in try/catch; any thrown error
yields `false`. -/
def pathExists (fs : FS) (p : String) : Bool :=
  match fs.access p with
  | .ok => true
  | .enoent => false
  | .eacces => false

/-- Source `getAllFileNamesInDirectory`: `readdirSync` when the path exists,
otherwise the empty listing. -/
def getAllFileNamesInDirectory (fs : FS) (directoryPath : String) : List String :=
  if pathExists fs directoryPath then fs.readdir directoryPath else []

/-- Source `createFileItem`: joins the path, decides directory-ness via
`existsSync && lstatSync(..).isDirectory()`, attaches the open command exactly
when the entry is not a directory, and copies the `displayTestIcon` flag. -/
def createFileItem (fs : FS) (element directoryPath : String)
    (displayTestIcon : Bool) : FileItem :=
  let filePath := pathJoin directoryPath element
  let isDirectory := fs.existsSync filePath && fs.isDirectorySync filePath
  { label := element
    fsPath := filePath
    isDirectory := isDirectory
    hasCommand := !isDirectory
    isTestOrStoryFile := displayTestIcon }

/-- Source `getAllFilesInDirectory`: list the names and build an item for each;
the auxiliary marker is set for the whole call iff the listed directory is one
of the two auxiliary directories. -/
def getAllFilesInDirectory (fs : FS) (workspaceRoot directoryPath : String) :
    List FileItem :=
  let allElements := getAllFileNamesInDirectory fs directoryPath
  let displayTestIcon := inTestOrStoryDirectory workspaceRoot directoryPath
  allElements.map (fun element => createFileItem fs element directoryPath displayTestIcon)

/-- Source `findMatchingFiles`: filter the auxiliary directory's names by the
matcher and build an item (with the auxiliary marker set) for each match. -/
def findMatchingFiles (fs : FS) (directoryPath componentLabel : String) :
    List FileItem :=
  ((getAllFileNamesInDirectory fs directoryPath).filter
    (fun fileName => isMatchingFileName componentLabel fileName)).map
    (fun fileName => createFileItem fs fileName directoryPath true)

/-- The body of the `forEach` in `getCombinedComponentsWithTestFiles` after the
unconditional `result.push(file)`: the auxiliary items pushed after `file`,
namely nothing when the label already looks like a test/story file and
otherwise the tests-directory matches followed by the stories-directory
matches. -/
def spliceAfter (fs : FS) (workspaceRoot : String) (file : FileItem) :
    List FileItem :=
  if isTestOrStoryFile file.label then []
  else
    findMatchingFiles fs (pathJoin workspaceRoot "tests") file.label ++
    findMatchingFiles fs (pathJoin workspaceRoot "stories") file.label

/-- Source `getCombinedComponentsWithTestFiles`: for each listed item, the item
itself followed by its spliced auxiliary matches. -/
def getCombinedComponentsWithTestFiles (fs : FS) (workspaceRoot directoryPath : String) :
    List FileItem :=
  (getAllFilesInDirectory fs workspaceRoot directoryPath).flatMap
    (fun file => file :: spliceAfter fs workspaceRoot file)

/-- Source `getChildren`.  The second component counts the advisory notices
(`showInformationMessage`) surfaced during the call.  An unset workspace root is
the empty string (JavaScript falsiness of `this.workspaceRoot`). -/
def getChildren (fs : FS) (workspaceRoot : String) (element : Option FileItem) :
    List FileItem × Nat :=
  if workspaceRoot = "" then ([], 1)
  else
    match element with
    | some el =>
      if !(inTestOrStoryDirectory workspaceRoot el.fsPath) then
        (getCombinedComponentsWithTestFiles fs workspaceRoot el.fsPath, 0)
      else
        (getAllFilesInDirectory fs workspaceRoot el.fsPath, 0)
    | none => (getAllFilesInDirectory fs workspaceRoot workspaceRoot, 0)

/-- Spec-side stem (section 4.2): the substring of the component label before
its first `.` — as a character list. -/
def specStem (c : String) : List Char :=
  c.data.takeWhile (fun ch => decide (ch ≠ '.'))

/-- Spec-side matcher (section 4.2): the candidate starts with
`stem + ".test."` or `stem + ".stories."`. -/
def specMatches (c x : String) : Prop :=
  (specStem c ++ ".test.".data) <+: x.data ∨
  (specStem c ++ ".stories.".data) <+: x.data

/-- Filesystem with the sole component `Button.tsx` at the workspace root and a
matching `Button.test.tsx` in the tests directory; used to compare the root
query with the splice algorithm. -/
def fsRootSplice : FS where
  readdir := fun p =>
    if p = "root" then ["Button.tsx"]
    else if p = "root/tests" then ["Button.test.tsx"]
    else []
  access := fun p =>
    if p = "root" ∨ p = "root/tests" ∨ p = "root/stories" then .ok else .enoent
  existsSync := fun _ => false
  isDirectorySync := fun _ => false

/-- Filesystem whose component directory holds a sub-directory named `Button`
while the tests directory holds `Button.test.tsx`; used to probe the splice
guard on directory entries. -/
def fsDirSplice : FS where
  readdir := fun p =>
    if p = "root/comps" then ["Button"]
    else if p = "root/tests" then ["Button.test.tsx"]
    else []
  access := fun p =>
    if p = "root/comps" ∨ p = "root/tests" ∨ p = "root/stories" then .ok else .enoent
  existsSync := fun p => decide (p = "root/comps/Button")
  isDirectorySync := fun p => decide (p = "root/comps/Button")

/-- Filesystem with two component files sharing the stem `Button` and one
matching test file. -/
def fsSharedStem : FS where
  readdir := fun p =>
    if p = "root/comps" then ["Button.tsx", "Button.css"]
    else if p = "root/tests" then ["Button.test.tsx"]
    else []
  access := fun p =>
    if p = "root/comps" ∨ p = "root/tests" then .ok else .enoent
  existsSync := fun _ => false
  isDirectorySync := fun _ => false

/-- Filesystem realising the spec's splice-ordering scenario: components
`A.tsx`, `B.tsx`; tests `A.test.tsx`; stories `B.stories.tsx`, `A.stories.tsx`. -/
def fsOrdering : FS where
  readdir := fun p =>
    if p = "root/comps" then ["A.tsx", "B.tsx"]
    else if p = "root/tests" then ["A.test.tsx"]
    else if p = "root/stories" then ["B.stories.tsx", "A.stories.tsx"]
    else []
  access := fun p =>
    if p = "root/comps" ∨ p = "root/tests" ∨ p = "root/stories" then .ok else .enoent
  existsSync := fun _ => false
  isDirectorySync := fun _ => false

/-- Auxiliary directory containing a test file and a sub-directory; every entry
of its flat listing must come out marked auxiliary, the sub-directory included. -/
def fsAux : FS where
  readdir := fun p => if p = "root/tests" then ["Widget.test.tsx", "sub"] else []
  access := fun p => if p = "root/tests" then .ok else .enoent
  existsSync := fun p => decide (p = "root/tests/sub")
  isDirectorySync := fun p => decide (p = "root/tests/sub")

/-- Filesystem with a directory named `tests` nested under a component
sub-directory, distinct from the workspace-level `root/tests`. -/
def fsNested : FS where
  readdir := fun p =>
    if p = "root/Comp/tests" then ["Helper.tsx"]
    else if p = "root/tests" then ["Helper.test.tsx"]
    else []
  access := fun p =>
    if p = "root/Comp/tests" ∨ p = "root/tests" then .ok else .enoent
  existsSync := fun _ => false
  isDirectorySync := fun _ => false

/-- Filesystem on which every read fails with "no such file". -/
def fsEmpty : FS where
  readdir := fun _ => []
  access := fun _ => .enoent
  existsSync := fun _ => false
  isDirectorySync := fun _ => false

/-- A filesystem extensionally equal to `fsEmpty` but built from different
function terms. -/
def fsEmptyB : FS where
  readdir := fun p => if p = "never" then [] else []
  access := fun p => if p = "never" then .enoent else .enoent
  existsSync := fun _ => false
  isDirectorySync := fun _ => false

/-- Filesystem on which every existence check fails with a permission error. -/
def fsError : FS where
  readdir := fun _ => ["ghost.tsx"]
  access := fun _ => .eacces
  existsSync := fun _ => false
  isDirectorySync := fun _ => false

/-- The node of the workspace-level tests directory. -/
def testsDirNode : FileItem :=
  { label := "tests", fsPath := "root/tests", isDirectory := true,
    hasCommand := false, isTestOrStoryFile := false }

/-- The node of a `tests` directory nested under a component sub-directory. -/
def nestedTestsNode : FileItem :=
  { label := "tests", fsPath := "root/Comp/tests", isDirectory := true,
    hasCommand := false, isTestOrStoryFile := false }

/-- A file item whose own name is already test-like. -/
def itemTestFileA : FileItem :=
  { label := "A.test.tsx", fsPath := "root/comps/A.test.tsx", isDirectory := false,
    hasCommand := true, isTestOrStoryFile := false }

/-- An item with the same label as `itemTestFileA` but every other field
different, a directory in particular. -/
def itemTestFileB : FileItem :=
  { label := "A.test.tsx", fsPath := "elsewhere/A.test.tsx", isDirectory := true,
    hasCommand := false, isTestOrStoryFile := true }

@[simp] theorem createFileItem_label (fs : FS) (e d : String) (b : Bool) :
    (createFileItem fs e d b).label = e := rfl

@[simp] theorem createFileItem_isTestOrStoryFile (fs : FS) (e d : String) (b : Bool) :
    (createFileItem fs e d b).isTestOrStoryFile = b := rfl

/-- The head of a JavaScript-style split is the longest separator-free prefix of
the input. -/
theorem splitChar_headD (sep : Char) (l : List Char) :
    (splitChar sep l).headD [] = l.takeWhile (fun ch => decide (ch ≠ sep)) := by
  induction l with
  | nil => rfl
  | cons c t ih =>
    simp only [splitChar, List.takeWhile_cons]
    cases hrec : splitChar sep t with
    | nil =>
      dsimp only
      rw [hrec] at ih
      simp only [List.headD_nil] at ih
      by_cases hc : c = sep
      · rw [if_pos hc, if_neg (by simp [hc])]
        rfl
      · rw [if_neg hc, if_pos (by simp [hc]), List.headD_cons, ← ih]
    | cons h r =>
      dsimp only
      rw [hrec] at ih
      simp only [List.headD_cons] at ih
      by_cases hc : c = sep
      · rw [if_pos hc, if_neg (by simp [hc])]
        rfl
      · rw [if_neg hc, if_pos (by simp [hc]), List.headD_cons, ← ih]

/-- Claim C1, counterexample.  On a workspace whose root directly contains
`Button.tsx` and whose tests directory contains `Button.test.tsx`, the root
query returns the flat listing `[Button.tsx]` while
`getCombinedComponentsWithTestFiles` (the spec's `listDirectoryChildren`) would
also splice in `Button.test.tsx`; the two sequences differ, so the root query
does not delegate to the splice algorithm. -/
theorem root_query_not_spliced_cex :
    (getChildren fsRootSplice "root" none).1 ≠
      getCombinedComponentsWithTestFiles fsRootSplice "root" "root" := by decide

/-- Claim C1, amended.  For every root query when the workspace root is set, the
returned sequence is the flat listing `getAllFilesInDirectory` of the workspace
root, with no auxiliary splicing applied and no advisory notice. -/
theorem root_query_flat_listing (fs : FS) (workspaceRoot : String)
    (h : workspaceRoot ≠ "") :
    getChildren fs workspaceRoot none =
      (getAllFilesInDirectory fs workspaceRoot workspaceRoot, 0) := by
  simp [getChildren, h]

/-- Witness for `root_query_flat_listing` at a concrete workspace root. -/
theorem root_query_flat_listing_witness :
    getChildren fsEmpty "root" none = (getAllFilesInDirectory fsEmpty "root" "root", 0) :=
  root_query_flat_listing fsEmpty "root" (by decide)

/-- Claim C2, counterexample.  In `fsDirSplice` the base listing of
`root/comps` consists of the single entry `Button` of kind directory
(`isDirectory = true`), yet the splice algorithm appends the matched auxiliary
node `Button.test.tsx` immediately after it: matches are not restricted to
entries of kind file. -/
theorem directory_entry_spliced_cex :
    getCombinedComponentsWithTestFiles fsDirSplice "root" "root/comps" =
      [{ label := "Button", fsPath := "root/comps/Button", isDirectory := true,
         hasCommand := false, isTestOrStoryFile := false },
       { label := "Button.test.tsx", fsPath := "root/tests/Button.test.tsx",
         isDirectory := false, hasCommand := true, isTestOrStoryFile := true }] := by
  decide

/-- Claim C2, amended.  The splice appended after a base entry depends only on
the entry's label and never on its kind: two entries with equal labels receive
identical splices whatever their other fields, and an entry whose own label
contains `.test.` or `.stories.` is passed through with no splice. -/
theorem splice_guard_label_only (fs : FS) (workspaceRoot : String) (f g : FileItem)
    (h : f.label = g.label) :
    spliceAfter fs workspaceRoot f = spliceAfter fs workspaceRoot g ∧
    (isTestOrStoryFile f.label = true → spliceAfter fs workspaceRoot f = []) := by
  constructor
  · simp only [spliceAfter, h]
  · intro ht
    simp [spliceAfter, ht]

/-- Witness for `splice_guard_label_only`: a file item and a directory item
sharing the label `A.test.tsx`. -/
theorem splice_guard_label_only_witness :
    spliceAfter fsEmpty "root" itemTestFileA = spliceAfter fsEmpty "root" itemTestFileB ∧
    (isTestOrStoryFile itemTestFileA.label = true →
      spliceAfter fsEmpty "root" itemTestFileA = []) :=
  splice_guard_label_only fsEmpty "root" itemTestFileA itemTestFileB rfl

/-- Claim C3.  For all component labels and candidate names, the source's
matcher accepts exactly the candidates that start with `stem + ".test."` or
`stem + ".stories."`, where the stem is the part of the component label before
its first dot; in particular `ButtonGroup.test.tsx` is rejected for
`Button.tsx` while `Button.test.tsx` and `Button.stories.tsx` are accepted. -/
theorem matcher_iff_spec :
    (∀ c x, isMatchingFileName c x = true ↔ specMatches c x) ∧
    isMatchingFileName "Button.tsx" "ButtonGroup.test.tsx" = false ∧
    isMatchingFileName "Button.tsx" "Button.test.tsx" = true ∧
    isMatchingFileName "Button.tsx" "Button.stories.tsx" = true := by
  refine ⟨?_, by decide, by decide, by decide⟩
  intro c x
  simp only [isMatchingFileName, specMatches, jsSplitHead, specStem, splitChar_headD,
    Bool.or_eq_true]
  rw [ List.isPrefixOf_iff_prefix, List.isPrefixOf_iff_prefix]

/-- Claim C4.  For any directory listing `[A.tsx, B.tsx]` with tests directory
`[A.test.tsx]` and stories directory `[B.stories.tsx, A.stories.tsx]`, the
splice algorithm yields exactly the labels
`[A.tsx, A.test.tsx, A.stories.tsx, B.tsx, B.stories.tsx]`: listing order
preserved, tests-directory matches before stories-directory matches per
component, non-matching auxiliary files omitted. -/
theorem splice_ordering (fs : FS) (workspaceRoot directoryPath : String)
    (h1 : getAllFileNamesInDirectory fs directoryPath = ["A.tsx", "B.tsx"])
    (h2 : getAllFileNamesInDirectory fs (pathJoin workspaceRoot "tests") = ["A.test.tsx"])
    (h3 : getAllFileNamesInDirectory fs (pathJoin workspaceRoot "stories") =
      ["B.stories.tsx", "A.stories.tsx"]) :
    (getCombinedComponentsWithTestFiles fs workspaceRoot directoryPath).map
        FileItem.label =
      ["A.tsx", "A.test.tsx", "A.stories.tsx", "B.tsx", "B.stories.tsx"] := by
  have e1 : isTestOrStoryFile "A.tsx" = false := by decide
  have e2 : isTestOrStoryFile "B.tsx" = false := by decide
  have m1 : isMatchingFileName "A.tsx" "A.test.tsx" = true := by decide
  have m2 : isMatchingFileName "A.tsx" "B.stories.tsx" = false := by decide
  have m3 : isMatchingFileName "A.tsx" "A.stories.tsx" = true := by decide
  have m4 : isMatchingFileName "B.tsx" "A.test.tsx" = false := by decide
  have m5 : isMatchingFileName "B.tsx" "B.stories.tsx" = true := by decide
  have m6 : isMatchingFileName "B.tsx" "A.stories.tsx" = false := by decide
  simp [getCombinedComponentsWithTestFiles, getAllFilesInDirectory, h1, spliceAfter,
    findMatchingFiles, h2, h3, e1, e2, m1, m2, m3, m4, m5, m6, List.filter_cons]

/-- Witness for `splice_ordering` on the concrete filesystem `fsOrdering`. -/
theorem splice_ordering_witness :
    (getCombinedComponentsWithTestFiles fsOrdering "root" "root/comps").map
        FileItem.label =
      ["A.tsx", "A.test.tsx", "A.stories.tsx", "B.tsx", "B.stories.tsx"] :=
  splice_ordering fsOrdering "root" "root/comps" (by decide) (by decide) (by decide)

/-- Claim C5.  Expanding a node whose path is exactly one of the two auxiliary
directory paths returns exactly the flat listing of that path with no splicing,
and every resulting node carries the auxiliary marker, whatever its own kind. -/
theorem aux_dir_flat_listing (fs : FS) (workspaceRoot : String) (el : FileItem)
    (hroot : workspaceRoot ≠ "")
    (h : el.fsPath = pathJoin workspaceRoot "tests" ∨
         el.fsPath = pathJoin workspaceRoot "stories") :
    (getChildren fs workspaceRoot (some el)).1 =
      getAllFilesInDirectory fs workspaceRoot el.fsPath ∧
    ∀ it ∈ (getChildren fs workspaceRoot (some el)).1, it.isTestOrStoryFile = true := by
  have hb : inTestOrStoryDirectory workspaceRoot el.fsPath = true := by
    rcases h with h | h <;> simp [inTestOrStoryDirectory, h]
  have hres : (getChildren fs workspaceRoot (some el)).1 =
      getAllFilesInDirectory fs workspaceRoot el.fsPath := by
    simp [getChildren, hroot, hb]
  refine ⟨hres, ?_⟩
  rw [hres]
  intro it hit
  simp only [getAllFilesInDirectory, hb, List.mem_map] at hit
  obtain ⟨e, he, rfl⟩ := hit
  rfl

/-- Witness for `aux_dir_flat_listing`: the workspace tests directory of
`fsAux`, whose listing holds a test file and a sub-directory. -/
theorem aux_dir_flat_listing_witness :
    (getChildren fsAux "root" (some testsDirNode)).1 =
      getAllFilesInDirectory fsAux "root" testsDirNode.fsPath ∧
    ∀ it ∈ (getChildren fsAux "root" (some testsDirNode)).1,
      it.isTestOrStoryFile = true :=
  aux_dir_flat_listing fsAux "root" testsDirNode (by decide) (Or.inl (by decide))

/-- Claim C6.  When a directory does not exist, or the existence check fails
with a filesystem access error, the listing is empty; the error is absorbed by
the existence check and never reaches the caller. -/
theorem missing_dir_empty_listing (fs : FS) (p : String)
    (h : fs.access p = AccessResult.enoent ∨ fs.access p = AccessResult.eacces) :
    getAllFileNamesInDirectory fs p = [] := by
  rcases h with h | h <;> simp [getAllFileNamesInDirectory, pathExists, h]

/-- Witness for `missing_dir_empty_listing` on a filesystem whose access check
fails with a permission error. -/
theorem missing_dir_empty_listing_witness :
    getAllFileNamesInDirectory fsError "root/tests" = [] :=
  missing_dir_empty_listing fsError "root/tests" (Or.inr rfl)

/-- Claim C7.  A root query with no workspace root set returns the empty
sequence and surfaces exactly one advisory notice. -/
theorem empty_root_single_notice (fs : FS) : getChildren fs "" none = ([], 1) := rfl

/-- Claim C8.  Determinism under an unchanged filesystem: two `getChildren`
calls on the same node against filesystems whose four observation primitives
agree on every path produce structurally identical results — same items, same
order. -/
theorem getChildren_deterministic (fs1 fs2 : FS) (workspaceRoot : String)
    (element : Option FileItem)
    (hr : ∀ p, fs1.readdir p = fs2.readdir p)
    (ha : ∀ p, fs1.access p = fs2.access p)
    (he : ∀ p, fs1.existsSync p = fs2.existsSync p)
    (hd : ∀ p, fs1.isDirectorySync p = fs2.isDirectorySync p) :
    getChildren fs1 workspaceRoot element = getChildren fs2 workspaceRoot element := by
  obtain ⟨r1, a1, e1, d1⟩ := fs1
  obtain ⟨r2, a2, e2, d2⟩ := fs2
  have : r1 = r2 := funext hr
  have : a1 = a2 := funext ha
  have : e1 = e2 := funext he
  have : d1 = d2 := funext hd
  subst_vars
  rfl

/-- Witness for `getChildren_deterministic` on two extensionally equal but
syntactically different filesystems. -/
theorem getChildren_deterministic_witness :
    getChildren fsEmpty "root" none = getChildren fsEmptyB "root" none :=
  getChildren_deterministic fsEmpty fsEmptyB "root" none
    (fun p => by simp [fsEmpty, fsEmptyB])
    (fun p => by simp [fsEmpty, fsEmptyB])
    (fun _ => rfl)
    (fun _ => rfl)

/-- Claim C9.  When two base entries share the stem `Button`, the matching
auxiliary file is spliced after each of them, so the same auxiliary path
`root/tests/Button.test.tsx` occurs twice in a single result. -/
theorem shared_stem_duplicate_splice :
    (getCombinedComponentsWithTestFiles fsSharedStem "root" "root/comps").map
        FileItem.fsPath =
      ["root/comps/Button.tsx", "root/tests/Button.test.tsx",
       "root/comps/Button.css", "root/tests/Button.test.tsx"] ∧
    ((getCombinedComponentsWithTestFiles fsSharedStem "root" "root/comps").filter
        (fun it => it.fsPath == "root/tests/Button.test.tsx")).length = 2 := by
  constructor <;> decide

/-- Claim C10.  Auxiliary treatment is decided by exact path equality with the
two workspace-level auxiliary directories: expanding any node with a different
path — a nested directory named `tests`, say — runs the splice algorithm, and
none of the entries of that directory's own listing are marked auxiliary. -/
theorem nested_aux_named_dir_regular (fs : FS) (workspaceRoot : String) (el : FileItem)
    (hroot : workspaceRoot ≠ "")
    (h1 : el.fsPath ≠ pathJoin workspaceRoot "tests")
    (h2 : el.fsPath ≠ pathJoin workspaceRoot "stories") :
    (getChildren fs workspaceRoot (some el)).1 =
      getCombinedComponentsWithTestFiles fs workspaceRoot el.fsPath ∧
    ∀ it ∈ getAllFilesInDirectory fs workspaceRoot el.fsPath,
      it.isTestOrStoryFile = false := by
  have hb : inTestOrStoryDirectory workspaceRoot el.fsPath = false := by
    simp [inTestOrStoryDirectory, h1, h2]
  constructor
  · simp [getChildren, hroot, hb]
  · intro it hit
    simp only [getAllFilesInDirectory, hb, List.mem_map] at hit
    obtain ⟨e, he, rfl⟩ := hit
    rfl

/-- Witness for `nested_aux_named_dir_regular`: a `tests` directory nested at
`root/Comp/tests`, distinct from the workspace-level `root/tests`. -/
theorem nested_aux_named_dir_regular_witness :
    (getChildren fsNested "root" (some nestedTestsNode)).1 =
      getCombinedComponentsWithTestFiles fsNested "root" nestedTestsNode.fsPath ∧
    ∀ it ∈ getAllFilesInDirectory fsNested "root" nestedTestsNode.fsPath,
      it.isTestOrStoryFile = false :=
  nested_aux_named_dir_regular fsNested "root" nestedTestsNode (by decide)
    (by decide) (by decide)
